import Mathlib

/-!
Verification of the metric-alerter delivery and persistence pipeline.

This file gives a shallow embedding, in Lean 4, of the parts of the
metric-alerter repository that the checked properties are about:

* the retry-with-backoff helper and its retriability classifier
  (`internal/config/errors.go`);
* the agent's HTTP and gRPC batch senders and the shutdown protocol of the
  agent's `main` (the dual-transport agent `main` package);
* the server-side metric store, the batch update handler with HMAC
  verification (`internal/handler/handler.go`);
* snapshot save/load and the database sync transaction
  (`internal/repository/save_metrics.go`, `internal/repository/storage.go`);
* the gRPC trusted-subnet interceptor (`internal/grpcserver/interceptor.go`);
* the poll-counter float64 round trip in the agent's collector.

External libraries (pgx, resty, gRPC, strconv, crypto) are modelled by
abstract parameters together with the contracts the code relies on; the
control flow and data flow of the repository's own functions are translated
directly from the Go source.
-/

namespace MetricAlerter

/-! ## Errors (Go error values as they flow through the pipeline)

`GoError` models the Go `error` values produced and inspected by the core:
`pgconn.PgError` values carrying an SQLSTATE code, plain errors created with
`fmt.Errorf` (without `%w`), network transport errors, wrapping errors
created with `fmt.Errorf("...: %w", err)`, the final
`fmt.Errorf("operation failed after retries: %w", lastErr)` value, and
context cancellation. -/

inductive GoError where
  | pgError (code : String) (message : String)
  | netError (message : String)
  | errorf (message : String)
  | wrapped (message : String) (inner : GoError)
  | retriesExhausted (last : GoError)
  | retriesExhaustedNoCause
  | contextCanceled
deriving Repr, DecidableEq

/-- Models `errors.As(err, &pgErr)`: unwraps `%w` chains looking for a
`pgconn.PgError`, returning its code and message when found. -/
def asPgError : GoError → Option (String × String)
  | .pgError code message => some (code, message)
  | .wrapped _ inner => asPgError inner
  | .retriesExhausted inner => asPgError inner
  | _ => none

/-- Models `isRetriableError` from `internal/config/errors.go`: true exactly
when the error chain contains a `pgconn.PgError` whose SQLSTATE code has at
least two characters and starts with "08" (connection-class failures). -/
def isRetriableError (err : GoError) : Bool :=
  match asPgError err with
  | some (code, _) => decide (2 ≤ code.length) && (code.take 2 == "08")
  | none => false

/-- Models the package-level `retryIntervals` variable: waits of 1s, 3s and
5s, in seconds. -/
def retryIntervals : List Nat := [1, 3, 5]

/-- Outcome of a `RetryWithBackoff` run: the returned error (`none` means
the operation returned `nil`), the number of times `op` was invoked, and the
list of waits (in seconds) actually slept between attempts. -/
structure RetryOutcome where
  result : Option GoError
  calls : Nat
  slept : List Nat
deriving Repr, DecidableEq

/-- Loop body of `RetryWithBackoff`: one iteration per remaining interval.
`op k` is the result of the `k`-th invocation of the operation (`none` for
success), `cancel k` tells whether the caller's context is done during the
wait that follows the `k`-th failed attempt, `k` is the index of the next
attempt and `lastErr` the last retriable error seen so far. -/
def retryLoop (op : Nat → Option GoError) (cancel : Nat → Bool) :
    List Nat → Nat → Option GoError → RetryOutcome
  | [], _, lastErr =>
    match lastErr with
    | some e => ⟨some (.retriesExhausted e), 0, []⟩
    | none => ⟨some .retriesExhaustedNoCause, 0, []⟩
  | wait :: rest, k, _ =>
    match op k with
    | none => ⟨none, 1, []⟩
    | some err =>
      if isRetriableError err then
        if cancel k then ⟨some .contextCanceled, 1, []⟩
        else
          let r := retryLoop op cancel rest (k + 1) (some err)
          ⟨r.result, r.calls + 1, wait :: r.slept⟩
      else ⟨some err, 1, []⟩

/-- Models `RetryWithBackoff` from `internal/config/errors.go`: runs the
loop over the static `retryIntervals` schedule. -/
def RetryWithBackoff (op : Nat → Option GoError) (cancel : Nat → Bool) : RetryOutcome :=
  retryLoop op cancel retryIntervals 0 none

/-! ## The agent's batch send operations

`restySendOp` models one execution of the closure passed to
`config.RetryWithBackoff` inside `RestySender.SendBatch`: a POST whose
transport outcome is either an error or an HTTP status code; a transport
error is wrapped with `fmt.Errorf("failed to POST metrics batch: %w", err)`
and a non-200 status becomes `fmt.Errorf("unexpected status: %d", ...)`.
`grpcSendOp` models the closure inside `GRPCSender.SendBatch`. -/

def restySendOp (post : Except GoError Nat) : Option GoError :=
  match post with
  | .error e => some (.wrapped "failed to POST metrics batch" e)
  | .ok status =>
    if status = 200 then none
    else some (.errorf ("unexpected status: " ++ toString status))

/-- Models `RestySender.SendBatch`'s retry composition: the POST attempt is
wrapped in `config.RetryWithBackoff` (the 15s context never expires during
the 1s+3s+5s schedule, so cancellation is constantly false). `post k` gives
the transport outcome of the `k`-th attempted POST. -/
def restySendBatchRetry (post : Nat → Except GoError Nat) : RetryOutcome :=
  RetryWithBackoff (fun k => restySendOp (post k)) (fun _ => false)

def grpcSendOp (call : Option GoError) : Option GoError :=
  match call with
  | some e => some (.wrapped "failed to send metrics via gRPC" e)
  | none => none

/-- Models `GRPCSender.SendBatch`'s retry composition. -/
def grpcSendBatchRetry (call : Nat → Option GoError) : RetryOutcome :=
  RetryWithBackoff (fun k => grpcSendOp (call k)) (fun _ => false)

/-! ## C1 -/

/-- A POST attempt sequence that fails with a transport-level network error
on the first attempt and would succeed on every later attempt. -/
def postFailsOnce : Nat → Except GoError Nat :=
  fun k => if k = 0 then .error (.netError "connection refused") else .ok 200

/-- C1, counterexample: a network delivery error is NOT classified as
retriable by `isRetriableError`, so `RestySender.SendBatch`'s retry wrapper
gives up after a single call — even though the very next attempt would have
succeeded — instead of re-attempting up to the schedule length. -/
theorem c1_network_error_counterexample :
    restySendBatchRetry postFailsOnce =
      ⟨some (.wrapped "failed to POST metrics batch" (.netError "connection refused")), 1, []⟩ ∧
    isRetriableError
      (.wrapped "failed to POST metrics batch" (.netError "connection refused")) = false ∧
    restySendOp (postFailsOnce 1) = none := by
  refine ⟨?_, ?_, ?_⟩ <;> rfl

/-- C1 (amended): network delivery errors are never retried. For both the
request/response and the streaming-RPC transport, if the first attempt fails
with a network error (a transport error that is not a PostgreSQL
connection-class error, or a non-200 response status), the retry wrapper
returns that wrapped error immediately: exactly one call is made and no
backoff wait is slept. Only PostgreSQL SQLSTATE 08 errors are retriable. -/
theorem c1_network_errors_not_retried (post : Nat → Except GoError Nat)
    (call : Nat → Option GoError) :
    (∀ e, asPgError e = none → post 0 = .error e →
      restySendBatchRetry post = ⟨some (.wrapped "failed to POST metrics batch" e), 1, []⟩) ∧
    (∀ status, post 0 = .ok status → status ≠ 200 →
      restySendBatchRetry post =
        ⟨some (.errorf ("unexpected status: " ++ toString status)), 1, []⟩) ∧
    (∀ e, asPgError e = none → call 0 = some e →
      grpcSendBatchRetry call = ⟨some (.wrapped "failed to send metrics via gRPC" e), 1, []⟩) := by
  refine ⟨?_, ?_, ?_⟩
  · intro e hpg h0
    simp [restySendBatchRetry, RetryWithBackoff, retryIntervals, retryLoop, h0,
      restySendOp, isRetriableError, asPgError, hpg]
  · intro status h0 hs
    simp [restySendBatchRetry, RetryWithBackoff, retryIntervals, retryLoop, h0,
      restySendOp, isRetriableError, asPgError, hs]
  · intro e hpg h0
    simp [grpcSendBatchRetry, RetryWithBackoff, retryIntervals, retryLoop, h0,
      grpcSendOp, isRetriableError, asPgError, hpg]

/-- C1 witness: the amended theorem applied at a concrete always-failing
transport. -/
theorem c1_network_errors_not_retried_witness :
    restySendBatchRetry postFailsOnce =
      ⟨some (.wrapped "failed to POST metrics batch" (.netError "connection refused")), 1, []⟩ :=
  (c1_network_errors_not_retried postFailsOnce (fun _ => none)).1
    (.netError "connection refused") rfl rfl

/-! ## C2 -/

/-- A PostgreSQL connection-class error (SQLSTATE 08006). -/
def pgConnErr : GoError := .pgError "08006" "connection error"

/-- An operation that fails with a connection-class error on its first three
calls and would succeed on the fourth. -/
def opThreeFailsThenOk : Nat → Option GoError :=
  fun k => if k < 3 then some pgConnErr else none

/-- C2, counterexample: an operation that fails three consecutive times with
a retriable connection-class error and would succeed on the next call does
NOT ultimately succeed: the static 1s/3s/5s schedule allows only three
invocations, so the helper sleeps 1s+3s+5s, never makes the fourth call, and
returns the wrapped failed-after-retries error. -/
theorem c2_three_failures_counterexample :
    RetryWithBackoff opThreeFailsThenOk (fun _ => false) =
      ⟨some (.retriesExhausted pgConnErr), 3, [1, 3, 5]⟩ ∧
    opThreeFailsThenOk 3 = none := by
  exact ⟨rfl, rfl⟩

/-- C2 (amended): the helper invokes the operation at most three times (one
per entry of the static 1s/3s/5s schedule). If the operation fails twice
consecutively with connection-class (retriable) errors and succeeds on the
third call, the helper ultimately returns success, having slept the 1s and
3s backoff waits between the attempts. -/
theorem c2_two_failures_then_success (op : Nat → Option GoError) (e0 e1 : GoError)
    (h0 : op 0 = some e0) (hr0 : isRetriableError e0 = true)
    (h1 : op 1 = some e1) (hr1 : isRetriableError e1 = true)
    (h2 : op 2 = none) :
    RetryWithBackoff op (fun _ => false) = ⟨none, 3, [1, 3]⟩ := by
  simp [RetryWithBackoff, retryIntervals, retryLoop, h0, hr0, h1, hr1, h2]

/-- C2 witness: the amended theorem applied at an operation with two
connection-class failures followed by a success. -/
theorem c2_two_failures_then_success_witness :
    RetryWithBackoff (fun k => if k < 2 then some pgConnErr else none) (fun _ => false) =
      ⟨none, 3, [1, 3]⟩ :=
  c2_two_failures_then_success (fun k => if k < 2 then some pgConnErr else none)
    pgConnErr pgConnErr rfl rfl rfl rfl rfl

/-! ## Metric wire model and the in-memory store

`Metrics` is the wire form from `internal/model`: id, type, and optional
value/delta pointers. Gauge values are `float64` in Go; the embedding is
parametric in the gauge value type `G`, since none of the checked
properties depend on float arithmetic — only on how values flow.

`MemStorage` (from `internal/repository/storage.go`) keeps two independent
namespaces; Go maps are modelled as association lists with at most one
binding per key. -/

structure Metrics (G : Type) where
  id : String
  mtype : String
  value : Option G := none
  delta : Option Int := none
deriving Repr, DecidableEq

/-- Lookup in an association list, the semantics of reading a Go map. -/
def lookupKey (k : String) : List (String × α) → Option α
  | [] => none
  | (k₀, v) :: rest => if k₀ = k then some v else lookupKey k rest

/-- Update in an association list, the semantics of writing a Go map. -/
def insertKey (k : String) (v : α) : List (String × α) → List (String × α)
  | [] => [(k, v)]
  | (k₀, v₀) :: rest => if k₀ = k then (k, v) :: rest else (k₀, v₀) :: insertKey k v rest

structure MemStorage (G : Type) where
  gauge : List (String × G)
  counter : List (String × Int)
deriving Repr, DecidableEq

/-- Models `NewMemStorage`: empty gauge and counter maps. -/
def NewMemStorage {G : Type} : MemStorage G := ⟨[], []⟩

/-- Models `MemStorage.SetGauge`: replaces the prior value. -/
def SetGauge (name : String) (value : G) (s : MemStorage G) : MemStorage G :=
  { s with gauge := insertKey name value s.gauge }

/-- Models `MemStorage.AddCounter`: accumulates onto the prior value
(`s.counter[name] += delta`, zero when absent). -/
def AddCounter (name : String) (delta : Int) (s : MemStorage G) : MemStorage G :=
  { s with counter := insertKey name ((lookupKey name s.counter).getD 0 + delta) s.counter }

/-- Models `MemStorage.GetGauge` (found flag as `Option`). -/
def GetGauge (name : String) (s : MemStorage G) : Option G :=
  lookupKey name s.gauge

/-- Models `MemStorage.GetCounter`. -/
def GetCounter (name : String) (s : MemStorage G) : Option Int :=
  lookupKey name s.counter

/-- Models `MetricInfo` from `storage.go`: name, type and the value already
formatted to a string. -/
structure MetricInfo where
  name : String
  typ : String
  value : String
deriving Repr, DecidableEq

/-- Models `MemStorage.GetAll`: every gauge entry (formatted with
`strconv.FormatFloat(v, 'f', -1, 64)`, abstracted as `fmtG`) followed by
every counter entry (formatted with `strconv.FormatInt(v, 10)`, abstracted
as `fmtI`). -/
def GetAll (fmtG : G → String) (fmtI : Int → String) (s : MemStorage G) : List MetricInfo :=
  s.gauge.map (fun p => ⟨p.1, "gauge", fmtG p.2⟩) ++
    s.counter.map (fun p => ⟨p.1, "counter", fmtI p.2⟩)

/-! ## Server batch handler (`internal/handler/handler.go`) -/

/-- Models `Handler.verifyHash`: accepts when no key is configured, accepts
when the received signature header is empty, otherwise compares with the
HMAC-SHA256 of the raw body. The HMAC itself (`Handler.computeHash` over
`crypto/hmac`) is abstracted as `hmac key body`. -/
def verifyHash (hmac : String → β → String) (key : String) (body : β)
    (receivedHash : String) : Bool :=
  if key = "" then true
  else if receivedHash = "" then true
  else receivedHash == hmac key body

/-- The handler's possible responses on the batch update route. -/
inductive HandlerResp (G : Type) where
  | ok (echo : List (Metrics G))
  | badRequest (message : String)
  | notImplemented (message : String)
  | internalError (message : String)
deriving Repr, DecidableEq

/-- Models the entry loop of `HandlerUpdateBatchJSON`: entries are applied
to the store one at a time; the first entry with an unknown type aborts
with 501 and a missing value/delta aborts with 400, leaving the store as
mutated by the earlier entries. -/
def applyEntries (st : MemStorage G) : List (Metrics G) → MemStorage G × Option (HandlerResp G)
  | [] => (st, none)
  | m :: rest =>
    if m.mtype = "gauge" then
      match m.value with
      | none => (st, some (.badRequest "missing value for gauge"))
      | some v => applyEntries (SetGauge m.id v st) rest
    else if m.mtype = "counter" then
      match m.delta with
      | none => (st, some (.badRequest "missing delta for counter"))
      | some d => applyEntries (AddCounter m.id d st) rest
    else (st, some (.notImplemented "unknown metric type"))

/-- Models `HandlerUpdateBatchJSON`: verify the signature, decode the body,
apply the entries, then (when a database is configured) sync to it, and
echo the metrics back. `decode` abstracts `decodeRequestBody`
(JSON decoding), `dbConfigured`/`dbErr` abstract the `h.db != nil` check
and the outcome of `repository.SyncToDB`. -/
def HandlerUpdateBatchJSON (hmac : String → β → String) (key : String)
    (decode : β → Option (List (Metrics G))) (dbConfigured : Bool) (dbErr : Option GoError)
    (st : MemStorage G) (body : β) (receivedHash : String) :
    MemStorage G × HandlerResp G :=
  if verifyHash hmac key body receivedHash then
    match decode body with
    | none => (st, .badRequest "invalid json")
    | some metrics =>
      match applyEntries st metrics with
      | (st₂, some resp) => (st₂, resp)
      | (st₂, none) =>
        if dbConfigured then
          match dbErr with
          | some _ => (st₂, .internalError "failed to save metrics")
          | none => (st₂, .ok metrics)
        else (st₂, .ok metrics)
  else (st, .badRequest "invalid signature")

/-- An entry the loop accepts: a gauge with a value or a counter with a
delta. -/
def validEntry (m : Metrics G) : Bool :=
  if m.mtype = "gauge" then m.value.isSome
  else if m.mtype = "counter" then m.delta.isSome
  else false

/-- The response the loop produces at its first invalid entry. -/
def invalidResp (m : Metrics G) : HandlerResp G :=
  if m.mtype = "gauge" then .badRequest "missing value for gauge"
  else if m.mtype = "counter" then .badRequest "missing delta for counter"
  else .notImplemented "unknown metric type"

/-- The store mutation a single valid entry performs. -/
def applyEntry (st : MemStorage G) (m : Metrics G) : MemStorage G :=
  if m.mtype = "gauge" then
    match m.value with
    | some v => SetGauge m.id v st
    | none => st
  else if m.mtype = "counter" then
    match m.delta with
    | some d => AddCounter m.id d st
    | none => st
  else st

theorem applyEntries_cons_invalid (st : MemStorage G) (m : Metrics G)
    (rest : List (Metrics G)) (h : validEntry m = false) :
    applyEntries st (m :: rest) = (st, some (invalidResp m)) := by
  by_cases hg : m.mtype = "gauge"
  · cases hv : m.value with
    | none => simp [applyEntries, invalidResp, hg, hv]
    | some v => simp [validEntry, hg, hv] at h
  · by_cases hc : m.mtype = "counter"
    · cases hd : m.delta with
      | none => simp [applyEntries, invalidResp, hg, hc, hd]
      | some d => simp [validEntry, hg, hc, hd] at h
    · simp [applyEntries, invalidResp, hg, hc]

theorem applyEntries_cons_valid (st : MemStorage G) (m : Metrics G)
    (rest : List (Metrics G)) (h : validEntry m = true) :
    applyEntries st (m :: rest) = applyEntries (applyEntry st m) rest := by
  by_cases hg : m.mtype = "gauge"
  · cases hv : m.value with
    | none => simp [validEntry, hg, hv] at h
    | some v => simp [applyEntries, applyEntry, hg, hv]
  · by_cases hc : m.mtype = "counter"
    · cases hd : m.delta with
      | none => simp [validEntry, hg, hc, hd] at h
      | some d => simp [applyEntries, applyEntry, hg, hc, hd]
    · simp [validEntry, hg, hc] at h

theorem applyEntries_first_invalid {G : Type} (ms : List (Metrics G)) :
    ∀ (st : MemStorage G) (i : Nat) (mbad : Metrics G) (suffix : List (Metrics G)),
      (ms.take i).all validEntry = true →
      ms.drop i = mbad :: suffix →
      validEntry mbad = false →
      applyEntries st ms = ((ms.take i).foldl applyEntry st, some (invalidResp mbad)) := by
  induction ms with
  | nil =>
    intro st i mbad suffix _ hdrop _
    simp at hdrop
  | cons m rest ih =>
    intro st i mbad suffix hpre hdrop hbad
    cases i with
    | zero =>
      simp only [List.drop] at hdrop
      cases hdrop
      exact applyEntries_cons_invalid st m rest hbad
    | succ j =>
      simp only [List.take, List.all_cons, Bool.and_eq_true] at hpre
      simp only [List.drop] at hdrop
      have := ih (applyEntry st m) j mbad suffix hpre.2 hdrop hbad
      simp [applyEntries_cons_valid st m rest hpre.1, this, List.take]

/-- C6: when the first invalid entry of a decoded batch is at index `i`
(every entry before it is valid and the entry at `i` is invalid), the
handler applies entries `0..i-1` to the store, answers 501 for an unknown
metric type and 400 for a missing value/delta, and applies none of the
entries from index `i` onward: the resulting store is exactly the fold of
the first `i` entries, independent of everything at and after `i`. -/
theorem c6_first_invalid_entry (hmac : String → β → String) (key : String)
    (decode : β → Option (List (Metrics G))) (dbConfigured : Bool) (dbErr : Option GoError)
    (st : MemStorage G) (body : β) (receivedHash : String)
    (ms : List (Metrics G)) (i : Nat) (mbad : Metrics G) (suffix : List (Metrics G))
    (hv : verifyHash hmac key body receivedHash = true)
    (hd : decode body = some ms)
    (hpre : (ms.take i).all validEntry = true)
    (hdrop : ms.drop i = mbad :: suffix)
    (hbad : validEntry mbad = false) :
    HandlerUpdateBatchJSON hmac key decode dbConfigured dbErr st body receivedHash =
      ((ms.take i).foldl applyEntry st, invalidResp mbad) := by
  have happly := applyEntries_first_invalid ms st i mbad suffix hpre hdrop hbad
  simp [HandlerUpdateBatchJSON, hv, hd, happly]

/-- C6 witness: a concrete batch whose first invalid entry (an unknown
metric type) sits at index 1: the gauge at index 0 is applied, the handler
answers 501, and the counter at index 2 is not applied. -/
theorem c6_first_invalid_entry_witness :
    HandlerUpdateBatchJSON (fun k _ => k) ""
      (fun _ : Unit => some
        [⟨"a", "gauge", some 1, none⟩, ⟨"b", "histogram", none, none⟩,
         ⟨"c", "counter", none, some 5⟩])
      false none (NewMemStorage : MemStorage Int) () "" =
      (⟨[("a", 1)], []⟩, .notImplemented "unknown metric type") := by
  have h := c6_first_invalid_entry (G := Int) (β := Unit) (fun k _ => k) ""
    (fun _ => some
      [⟨"a", "gauge", some 1, none⟩, ⟨"b", "histogram", none, none⟩,
       ⟨"c", "counter", none, some 5⟩])
    false none NewMemStorage () ""
    [⟨"a", "gauge", some 1, none⟩, ⟨"b", "histogram", none, none⟩,
     ⟨"c", "counter", none, some 5⟩]
    1 ⟨"b", "histogram", none, none⟩ [⟨"c", "counter", none, some 5⟩]
    rfl rfl (by decide) (by decide) (by decide)
  simpa using h

theorem applyEntries_no_sig_resp {G : Type} (ms : List (Metrics G)) :
    ∀ st : MemStorage G,
      (applyEntries st ms).2 ≠ some (.badRequest "invalid signature") := by
  induction ms with
  | nil => intro st; simp [applyEntries]
  | cons m rest ih =>
    intro st
    by_cases hvalid : validEntry m = true
    · rw [applyEntries_cons_valid st m rest hvalid]
      exact ih _
    · rw [applyEntries_cons_invalid st m rest (by simpa using hvalid)]
      by_cases hg : m.mtype = "gauge"
      · simp [invalidResp, hg]
      · by_cases hc : m.mtype = "counter"
        · simp [invalidResp, hg, hc]
        · simp [invalidResp, hg, hc]

theorem handler_verified_ne_sigreject (hmac : String → β → String) (key : String)
    (decode : β → Option (List (Metrics G))) (dbConfigured : Bool) (dbErr : Option GoError)
    (st : MemStorage G) (body : β) (receivedHash : String)
    (hv : verifyHash hmac key body receivedHash = true) :
    (HandlerUpdateBatchJSON hmac key decode dbConfigured dbErr st body receivedHash).2 ≠
      .badRequest "invalid signature" := by
  simp only [HandlerUpdateBatchJSON, hv, if_true]
  split
  · simp
  · rename_i metrics hdec
    split
    · rename_i st₂ resp happ
      have hne := applyEntries_no_sig_resp metrics st
      rw [happ] at hne
      simpa using hne
    · split
      · split <;> simp
      · simp

/-- C4: with a signing key configured, the handler rejects a request with
a 400 "invalid signature" error — leaving the store untouched — exactly
when the signature header is present but differs from the HMAC-SHA256 of
the raw body; and `verifyHash` accepts any request whose signature header
is absent (empty) despite the configured key. -/
theorem c4_signature_check (hmac : String → β → String) (key : String)
    (decode : β → Option (List (Metrics G))) (dbConfigured : Bool) (dbErr : Option GoError)
    (st : MemStorage G) (body : β) (receivedHash : String)
    (hkey : key ≠ "") :
    (HandlerUpdateBatchJSON hmac key decode dbConfigured dbErr st body receivedHash =
        (st, .badRequest "invalid signature") ↔
      receivedHash ≠ "" ∧ receivedHash ≠ hmac key body) ∧
    verifyHash hmac key body "" = true := by
  refine ⟨⟨?_, ?_⟩, by simp [verifyHash]⟩
  · intro hresult
    by_cases hv : verifyHash hmac key body receivedHash = true
    · exact absurd (congrArg Prod.snd hresult)
        (handler_verified_ne_sigreject hmac key decode dbConfigured dbErr st body
          receivedHash hv)
    · have hvf : verifyHash hmac key body receivedHash = false := by
        simpa using hv
      constructor
      · intro hempty
        rw [hempty] at hvf
        simp [verifyHash, hkey] at hvf
      · intro hmatch
        rw [hmatch] at hvf
        by_cases hb : hmac key body = "" <;> simp [verifyHash, hkey, hb] at hvf
  · rintro ⟨hempty, hmatch⟩
    have hvf : verifyHash hmac key body receivedHash = false := by
      simp [verifyHash, hkey, hempty, beq_eq_false_iff_ne, hmatch]
    simp [HandlerUpdateBatchJSON, hvf]

/-- C4 witness: with key "k", a present-but-wrong signature is rejected
with 400 and the store is untouched. -/
theorem c4_signature_check_witness :
    HandlerUpdateBatchJSON (fun k b => k ++ b) "k" (fun _ => some ([] : List (Metrics Int)))
      false none (NewMemStorage : MemStorage Int) "body" "wrong" =
      (NewMemStorage, .badRequest "invalid signature") :=
  (c4_signature_check (fun k b => k ++ b) "k" (fun _ => some ([] : List (Metrics Int)))
    false none NewMemStorage "body" "wrong" (by decide)).1.mpr
    ⟨by decide, by decide⟩

/-! ## Snapshot save/load (`internal/repository/save_metrics.go`)

`SaveMetricsToFile` is modelled up to the `out` slice handed to the JSON
encoder: the `encoding/json` round trip on that slice is the identity for
these record types, so the file layer itself is dropped. `strconv.ParseFloat`
and `strconv.ParseInt` are abstracted as `parseG` and `parseI`; the Go
contract that shortest-form formatting round-trips
(`ParseFloat(FormatFloat(v, 'f', -1, 64), 64) = v` and the integer analogue)
becomes an explicit hypothesis of the round-trip theorem. -/

def SaveMetricsToFile (fmtG : G → String) (fmtI : Int → String)
    (parseG : String → G) (parseI : String → Int) (s : MemStorage G) : List (Metrics G) :=
  (GetAll fmtG fmtI s).filterMap fun mi =>
    if mi.typ = "gauge" then
      some { id := mi.name, mtype := "gauge", value := some (parseG mi.value) }
    else if mi.typ = "counter" then
      some { id := mi.name, mtype := "counter", delta := some (parseI mi.value) }
    else none

/-- Models `LoadMetricsFromFile` from the decoded entry list onward: gauges
with a present value are `SetGauge`-ed, counters with a present delta are
`AddCounter`-ed, anything else is skipped. -/
def LoadMetricsFromFile (s : MemStorage G) (ms : List (Metrics G)) : MemStorage G :=
  ms.foldl
    (fun st m =>
      if m.mtype = "gauge" then
        match m.value with
        | some v => SetGauge m.id v st
        | none => st
      else if m.mtype = "counter" then
        match m.delta with
        | some d => AddCounter m.id d st
        | none => st
      else st)
    s

theorem lookupKey_insertKey_self (k : String) (v : α) (l : List (String × α)) :
    lookupKey k (insertKey k v l) = some v := by
  induction l with
  | nil => simp [insertKey, lookupKey]
  | cons p rest ih =>
    rcases p with ⟨k₀, v₀⟩
    by_cases h : k₀ = k <;> simp [insertKey, lookupKey, h, ih]

theorem lookupKey_insertKey_ne (k q : String) (hne : q ≠ k) (v : α)
    (l : List (String × α)) :
    lookupKey q (insertKey k v l) = lookupKey q l := by
  have hkq : ¬ k = q := fun h => hne h.symm
  induction l with
  | nil => simp [insertKey, lookupKey, hkq]
  | cons p rest ih =>
    rcases p with ⟨k₀, v₀⟩
    by_cases h : k₀ = k
    · subst h
      simp [insertKey, lookupKey, hkq]
    · simp [insertKey, lookupKey, h, ih]

theorem lookupKey_eq_none_iff (k : String) (l : List (String × α)) :
    lookupKey k l = none ↔ k ∉ l.map Prod.fst := by
  induction l with
  | nil => simp [lookupKey]
  | cons p rest ih =>
    rcases p with ⟨k₀, v₀⟩
    by_cases h : k₀ = k
    · subst h; simp [lookupKey]
    · simp [lookupKey, h, ih, Ne.symm h]

/-- The fold `LoadMetricsFromFile` performs on a list of gauge-shaped
entries is a fold of `SetGauge`. -/
theorem load_gauge_entries (gs : List (String × G)) :
    ∀ st : MemStorage G,
      LoadMetricsFromFile st (gs.map fun p => ⟨p.1, "gauge", some p.2, none⟩) =
        gs.foldl (fun acc p => SetGauge p.1 p.2 acc) st := by
  induction gs with
  | nil => intro st; simp [LoadMetricsFromFile]
  | cons p rest ih =>
    intro st
    simpa [LoadMetricsFromFile] using ih (SetGauge p.1 p.2 st)

/-- The fold `LoadMetricsFromFile` performs on a list of counter-shaped
entries is a fold of `AddCounter`. -/
theorem load_counter_entries (cs : List (String × Int)) :
    ∀ st : MemStorage G,
      LoadMetricsFromFile st (cs.map fun p => ⟨p.1, "counter", none, some p.2⟩) =
        cs.foldl (fun acc p => AddCounter p.1 p.2 acc) st := by
  induction cs with
  | nil => intro st; simp [LoadMetricsFromFile]
  | cons p rest ih =>
    intro st
    simpa [LoadMetricsFromFile] using ih (AddCounter p.1 p.2 st)

theorem load_append (s : MemStorage G) (l₁ l₂ : List (Metrics G)) :
    LoadMetricsFromFile s (l₁ ++ l₂) = LoadMetricsFromFile (LoadMetricsFromFile s l₁) l₂ :=
  List.foldl_append _ _ _ _

theorem setGauge_fold_counter (gs : List (String × G)) :
    ∀ st : MemStorage G,
      (gs.foldl (fun acc p => SetGauge p.1 p.2 acc) st).counter = st.counter := by
  induction gs with
  | nil => intro st; rfl
  | cons p rest ih => intro st; simpa [SetGauge] using ih (SetGauge p.1 p.2 st)

theorem addCounter_fold_gauge (cs : List (String × Int)) :
    ∀ st : MemStorage G,
      (cs.foldl (fun acc p => AddCounter p.1 p.2 acc) st).gauge = st.gauge := by
  induction cs with
  | nil => intro st; rfl
  | cons p rest ih => intro st; simpa [AddCounter] using ih (AddCounter p.1 p.2 st)

theorem getGauge_fold_not_mem (gs : List (String × G)) (k : String)
    (hk : k ∉ gs.map Prod.fst) :
    ∀ st : MemStorage G,
      GetGauge k (gs.foldl (fun acc p => SetGauge p.1 p.2 acc) st) = GetGauge k st := by
  induction gs with
  | nil => intro st; rfl
  | cons p rest ih =>
    intro st
    simp only [List.map, List.mem_cons, not_or] at hk
    rw [List.foldl_cons, ih hk.2]
    exact lookupKey_insertKey_ne p.1 k hk.1 p.2 st.gauge

theorem getGauge_fold_lookup (gs : List (String × G)) (k : String) (v : G)
    (hnd : (gs.map Prod.fst).Nodup) (hv : lookupKey k gs = some v) :
    ∀ st : MemStorage G,
      GetGauge k (gs.foldl (fun acc p => SetGauge p.1 p.2 acc) st) = some v := by
  induction gs with
  | nil => intro st; simp [lookupKey] at hv
  | cons p rest ih =>
    intro st
    rcases p with ⟨k₀, v₀⟩
    simp only [List.map, List.nodup_cons] at hnd
    rw [List.foldl_cons]
    by_cases h : k₀ = k
    · subst h
      have hv₀ : v₀ = v := by simpa [lookupKey] using hv
      subst hv₀
      rw [getGauge_fold_not_mem rest k₀ hnd.1]
      exact lookupKey_insertKey_self k₀ v₀ st.gauge
    · simp only [lookupKey, if_neg h] at hv
      exact ih hnd.2 hv _

theorem getCounter_fold_not_mem (cs : List (String × Int)) (k : String)
    (hk : k ∉ cs.map Prod.fst) :
    ∀ st : MemStorage G,
      GetCounter k (cs.foldl (fun acc p => AddCounter p.1 p.2 acc) st) = GetCounter k st := by
  induction cs with
  | nil => intro st; rfl
  | cons p rest ih =>
    intro st
    simp only [List.map, List.mem_cons, not_or] at hk
    rw [List.foldl_cons, ih hk.2]
    exact lookupKey_insertKey_ne p.1 k hk.1 _ st.counter

theorem getCounter_fold_fresh (cs : List (String × Int)) (k : String) (d : Int)
    (hnd : (cs.map Prod.fst).Nodup) (hv : lookupKey k cs = some d) :
    ∀ st : MemStorage G, GetCounter k st = none →
      GetCounter k (cs.foldl (fun acc p => AddCounter p.1 p.2 acc) st) = some d := by
  induction cs with
  | nil => intro st _; simp [lookupKey] at hv
  | cons p rest ih =>
    intro st hst
    rcases p with ⟨k₀, d₀⟩
    simp only [List.map, List.nodup_cons] at hnd
    rw [List.foldl_cons]
    by_cases h : k₀ = k
    · subst h
      have hd₀ : d₀ = d := by simpa [lookupKey] using hv
      subst hd₀
      rw [getCounter_fold_not_mem rest k₀ hnd.1]
      show lookupKey k₀ (insertKey k₀ ((lookupKey k₀ st.counter).getD 0 + d₀) st.counter) = _
      rw [lookupKey_insertKey_self]
      rw [show lookupKey k₀ st.counter = none from hst]
      simp
    · simp only [lookupKey, if_neg h] at hv
      refine ih hnd.2 hv _ ?_
      show lookupKey k (insertKey k₀ _ st.counter) = none
      rw [lookupKey_insertKey_ne k₀ k (Ne.symm h) _ st.counter]
      exact hst

theorem save_eq_parts (fmtG : G → String) (fmtI : Int → String)
    (parseG : String → G) (parseI : String → Int)
    (hG : ∀ v, parseG (fmtG v) = v) (hI : ∀ d, parseI (fmtI d) = d)
    (s : MemStorage G) :
    SaveMetricsToFile fmtG fmtI parseG parseI s =
      (s.gauge.map fun p => ⟨p.1, "gauge", some p.2, none⟩) ++
        (s.counter.map fun p => ⟨p.1, "counter", none, some p.2⟩) := by
  unfold SaveMetricsToFile GetAll
  rw [List.filterMap_append]
  congr 1
  · induction s.gauge with
    | nil => rfl
    | cons p rest ih => simp_all [hG]
  · induction s.counter with
    | nil => rfl
    | cons p rest ih => simp_all [hI]

/-- C9: saving a store to the snapshot entry list and loading that list
into a fresh empty store reproduces exactly the same metric triples: every
gauge and counter name maps to the same value it had before, and absent
names stay absent — provided the strconv format/parse round trip behaves
as Go documents it (the `hG`/`hI` hypotheses) and each map binds its key
once (the Go map invariant). -/
theorem c9_save_load_roundtrip (fmtG : G → String) (fmtI : Int → String)
    (parseG : String → G) (parseI : String → Int)
    (hG : ∀ v, parseG (fmtG v) = v) (hI : ∀ d, parseI (fmtI d) = d)
    (s : MemStorage G)
    (hg : (s.gauge.map Prod.fst).Nodup) (hc : (s.counter.map Prod.fst).Nodup)
    (name : String) :
    GetGauge name
        (LoadMetricsFromFile NewMemStorage (SaveMetricsToFile fmtG fmtI parseG parseI s)) =
      GetGauge name s ∧
    GetCounter name
        (LoadMetricsFromFile NewMemStorage (SaveMetricsToFile fmtG fmtI parseG parseI s)) =
      GetCounter name s := by
  rw [save_eq_parts fmtG fmtI parseG parseI hG hI s, load_append,
    load_gauge_entries, load_counter_entries]
  constructor
  · have h1 : GetGauge name
        (s.counter.foldl (fun acc p => AddCounter p.1 p.2 acc)
          (s.gauge.foldl (fun acc p => SetGauge p.1 p.2 acc) NewMemStorage)) =
        GetGauge name (s.gauge.foldl (fun acc p => SetGauge p.1 p.2 acc) NewMemStorage) := by
      show lookupKey name (s.counter.foldl (fun acc p => AddCounter p.1 p.2 acc)
          (s.gauge.foldl (fun acc p => SetGauge p.1 p.2 acc) NewMemStorage)).gauge =
        lookupKey name (s.gauge.foldl (fun acc p => SetGauge p.1 p.2 acc) NewMemStorage).gauge
      rw [addCounter_fold_gauge]
    rw [h1]
    cases hv : lookupKey name s.gauge with
    | some v =>
      exact (getGauge_fold_lookup s.gauge name v hg hv NewMemStorage).trans hv.symm
    | none =>
      have hmem := (lookupKey_eq_none_iff name s.gauge).mp hv
      exact (getGauge_fold_not_mem s.gauge name hmem NewMemStorage).trans hv.symm
  · cases hv : lookupKey name s.counter with
    | some d =>
      refine (getCounter_fold_fresh s.counter name d hc hv _ ?_).trans hv.symm
      show lookupKey name
        (s.gauge.foldl (fun acc p => SetGauge p.1 p.2 acc) NewMemStorage).counter = none
      rw [setGauge_fold_counter]
      rfl
    | none =>
      have hmem := (lookupKey_eq_none_iff name s.counter).mp hv
      rw [getCounter_fold_not_mem s.counter name hmem]
      show lookupKey name
          (s.gauge.foldl (fun acc p => SetGauge p.1 p.2 acc) NewMemStorage).counter =
        lookupKey name s.counter
      rw [setGauge_fold_counter, hv]
      rfl

/-- A concrete invertible stand-in for `strconv.FormatInt` used by the
witnesses: a nonnegative integer becomes a run of `a`s, a negative one a
run of `b`s. -/
def fmtIntEnc (d : Int) : String :=
  if 0 ≤ d then String.mk (List.replicate d.toNat 'a')
  else String.mk (List.replicate (-d).toNat 'b')

/-- The inverse of `fmtIntEnc`. -/
def parseIntEnc (s : String) : Int :=
  if s.data.contains 'b' then -(s.data.length : Int) else (s.data.length : Int)

theorem replicate_contains_ne (n : Nat) (a b : Char) (h : a ≠ b) :
    (List.replicate n a).contains b = false := by
  induction n with
  | zero => rfl
  | succ k ih => simp [List.replicate, List.contains_cons, Ne.symm h, ih]

theorem parseIntEnc_fmtIntEnc (d : Int) : parseIntEnc (fmtIntEnc d) = d := by
  by_cases h : 0 ≤ d
  · rw [fmtIntEnc, if_pos h]
    unfold parseIntEnc
    rw [show (String.mk (List.replicate d.toNat 'a')).data = List.replicate d.toNat 'a'
      from rfl]
    rw [replicate_contains_ne _ 'a' 'b' (by decide)]
    simp [Int.toNat_of_nonneg h]
  · have hneg : 0 ≤ -d := by omega
    have htn : (((-d).toNat : Nat) : Int) = -d := Int.toNat_of_nonneg hneg
    have hpos : (-d).toNat ≠ 0 := by omega
    rcases Nat.exists_eq_succ_of_ne_zero hpos with ⟨k, hk⟩
    rw [fmtIntEnc, if_neg h]
    unfold parseIntEnc
    rw [show (String.mk (List.replicate (-d).toNat 'b')).data = List.replicate (-d).toNat 'b'
      from rfl]
    rw [hk]
    simp [List.replicate, List.contains_cons]
    omega

/-- C9 witness: the round-trip theorem applied to a concrete two-entry
store with the identity gauge codec and the invertible integer codec. -/
theorem c9_save_load_roundtrip_witness :
    GetGauge "g"
        (LoadMetricsFromFile NewMemStorage
          (SaveMetricsToFile id fmtIntEnc id parseIntEnc
            (⟨[("g", "1.5")], [("g", -3), ("c", 7)]⟩ : MemStorage String))) =
      some "1.5" ∧
    GetCounter "g"
        (LoadMetricsFromFile NewMemStorage
          (SaveMetricsToFile id fmtIntEnc id parseIntEnc
            (⟨[("g", "1.5")], [("g", -3), ("c", 7)]⟩ : MemStorage String))) =
      some (-3) :=
  c9_save_load_roundtrip id fmtIntEnc id parseIntEnc (fun _ => rfl) parseIntEnc_fmtIntEnc
    ⟨[("g", "1.5")], [("g", -3), ("c", 7)]⟩ (by decide) (by decide) "g"

/-! ## Database sync (`SyncToDB` in `internal/repository/save_metrics.go`)

One attempt of the closure handed to `config.RetryWithBackoff` is modelled
as a transaction over the rows produced from `storage.GetAll()`. The
database itself (pgx) is abstracted by the outcome of `Begin`, of each
`Exec` (indexed by statement position) and of `Commit`; the deferred
`tx.Rollback` makes every non-committed outcome a rollback. -/

structure UpsertRow (G : Type) where
  id : String
  mtype : String
  delta : Option Int
  value : Option G
deriving Repr, DecidableEq

inductive TxResult (G : Type) where
  | committed (rows : List (UpsertRow G))
  | rolledBack (err : GoError)
  | notStarted (err : GoError)
deriving Repr, DecidableEq

/-- The upsert rows `SyncToDB` executes: one per entry of `GetAll`, where a
gauge row carries a parsed value and a null delta and a counter row carries
a parsed delta and a null value (the `switch m.Type` in the Exec loop). -/
def syncRows (fmtG : G → String) (fmtI : Int → String)
    (parseG : String → G) (parseI : String → Int) (s : MemStorage G) : List (UpsertRow G) :=
  (GetAll fmtG fmtI s).filterMap fun mi =>
    if mi.typ = "gauge" then some ⟨mi.name, "gauge", none, some (parseG mi.value)⟩
    else if mi.typ = "counter" then some ⟨mi.name, "counter", some (parseI mi.value), none⟩
    else none

/-- Runs the Exec loop: returns the position, row and error of the first
failing statement, or `none` when every statement succeeds. -/
def execAll (execErr : Nat → Option GoError) :
    List (UpsertRow G) → Nat → Option (Nat × UpsertRow G × GoError)
  | [], _ => none
  | r :: rest, i =>
    match execErr i with
    | some e => some (i, r, e)
    | none => execAll execErr rest (i + 1)

/-- Models one attempt of `SyncToDB`'s transaction closure: begin, one
upsert Exec per row of `syncRows`, commit; the first failure aborts the
closure and the deferred rollback undoes the transaction. -/
def SyncToDBAttempt (fmtG : G → String) (fmtI : Int → String)
    (parseG : String → G) (parseI : String → Int) (s : MemStorage G)
    (beginErr : Option GoError) (execErr : Nat → Option GoError)
    (commitErr : Option GoError) : TxResult G :=
  match beginErr with
  | some e => .notStarted (.wrapped "failed to begin transaction" e)
  | none =>
    let rows := syncRows fmtG fmtI parseG parseI s
    match execAll execErr rows 0 with
    | some (_, r, e) =>
      .rolledBack (.wrapped ("failed to insert " ++ r.mtype ++ " " ++ r.id) e)
    | none =>
      match commitErr with
      | some e => .rolledBack (.wrapped "failed to commit transaction" e)
      | none => .committed rows

/-- Models the full `SyncToDB`: the transaction closure wrapped in
`config.RetryWithBackoff`, with per-attempt database behaviour. -/
def SyncToDB (fmtG : G → String) (fmtI : Int → String)
    (parseG : String → G) (parseI : String → Int) (s : MemStorage G)
    (beginErr : Nat → Option GoError) (execErr : Nat → Nat → Option GoError)
    (commitErr : Nat → Option GoError) (cancel : Nat → Bool) : RetryOutcome :=
  RetryWithBackoff
    (fun k =>
      match SyncToDBAttempt fmtG fmtI parseG parseI s (beginErr k) (execErr k) (commitErr k) with
      | .committed _ => none
      | .rolledBack e => some e
      | .notStarted e => some e)
    cancel

theorem syncRows_eq_parts (fmtG : G → String) (fmtI : Int → String)
    (parseG : String → G) (parseI : String → Int)
    (hG : ∀ v, parseG (fmtG v) = v) (hI : ∀ d, parseI (fmtI d) = d)
    (s : MemStorage G) :
    syncRows fmtG fmtI parseG parseI s =
      (s.gauge.map fun p => ⟨p.1, "gauge", none, some p.2⟩) ++
        (s.counter.map fun p => ⟨p.1, "counter", some p.2, none⟩) := by
  unfold syncRows GetAll
  rw [List.filterMap_append]
  congr 1
  · induction s.gauge with
    | nil => rfl
    | cons p rest ih => simp_all [hG]
  · induction s.counter with
    | nil => rfl
    | cons p rest ih => simp_all [hI]

/-- C7: when the database transaction succeeds (begin, every statement and
the commit), `SyncToDB`'s attempt commits exactly one upsert row per metric
currently in the store — the whole store, gauges carrying a value and a
null delta and counters a delta and a null value — and the wrapping
`RetryWithBackoff` reports overall success on the first attempt; when any
upsert statement or the commit fails, the attempt ends rolled back with the
corresponding wrapped error and nothing is committed. The strconv
format/parse round trip is assumed via `hG`/`hI`. -/
theorem c7_sync_transaction (fmtG : G → String) (fmtI : Int → String)
    (parseG : String → G) (parseI : String → Int)
    (hG : ∀ v, parseG (fmtG v) = v) (hI : ∀ d, parseI (fmtI d) = d)
    (s : MemStorage G) :
    SyncToDBAttempt fmtG fmtI parseG parseI s none (fun _ => none) none =
      .committed
        ((s.gauge.map fun p => ⟨p.1, "gauge", none, some p.2⟩) ++
          (s.counter.map fun p => ⟨p.1, "counter", some p.2, none⟩)) ∧
    SyncToDB fmtG fmtI parseG parseI s (fun _ => none) (fun _ _ => none) (fun _ => none)
        (fun _ => false) =
      ⟨none, 1, []⟩ ∧
    (∀ execErr commitErr i r e,
      execAll execErr (syncRows fmtG fmtI parseG parseI s) 0 = some (i, r, e) →
      SyncToDBAttempt fmtG fmtI parseG parseI s none execErr commitErr =
        .rolledBack (.wrapped ("failed to insert " ++ r.mtype ++ " " ++ r.id) e)) ∧
    (∀ execErr e,
      execAll execErr (syncRows fmtG fmtI parseG parseI s) 0 = none →
      SyncToDBAttempt fmtG fmtI parseG parseI s none execErr (some e) =
        .rolledBack (.wrapped "failed to commit transaction" e)) := by
  have hrows := syncRows_eq_parts fmtG fmtI parseG parseI hG hI s
  have hexecOk : ∀ (rows : List (UpsertRow G)) (i : Nat),
      execAll (fun _ => none) rows i = none := by
    intro rows
    induction rows with
    | nil => intro i; rfl
    | cons r rest ih => intro i; simpa [execAll] using ih (i + 1)
  refine ⟨?_, ?_, ?_, ?_⟩
  · simp [SyncToDBAttempt, hexecOk, hrows]
  · have hattempt : SyncToDBAttempt fmtG fmtI parseG parseI s none (fun _ => none) none =
        .committed (syncRows fmtG fmtI parseG parseI s) := by
      simp [SyncToDBAttempt, hexecOk]
    simp [SyncToDB, RetryWithBackoff, retryIntervals, retryLoop, hattempt]
  · intro execErr commitErr i r e hfail
    simp [SyncToDBAttempt, hfail]
  · intro execErr e hok
    simp [SyncToDBAttempt, hok]

/-- C7 witness: the transaction theorem applied to a concrete store with
the identity gauge codec and the invertible integer codec. -/
theorem c7_sync_transaction_witness :
    SyncToDBAttempt id fmtIntEnc id parseIntEnc
        (⟨[("Alloc", "123.45")], [("PollCount", 7)]⟩ : MemStorage String)
        none (fun _ => none) none =
      .committed
        [⟨"Alloc", "gauge", none, some "123.45"⟩,
         ⟨"PollCount", "counter", some 7, none⟩] := by
  have h := (c7_sync_transaction id fmtIntEnc id parseIntEnc (fun _ => rfl)
    parseIntEnc_fmtIntEnc (⟨[("Alloc", "123.45")], [("PollCount", 7)]⟩ : MemStorage String)).1
  simpa using h

/-! ## Request construction in the HTTP sender (dual-transport agent)

`restyBuildRequest` models the data flow of `RestySender.SendBatch` from
the marshalled batch to the outgoing request: gzip compression (`gzipC`),
HMAC signing of the compressed bytes (`hmacF`), optional RSA encryption
(`encrypt`, applied when a public key is configured) and the header set
attached to the POST. -/

structure HttpRequest (β : Type) where
  body : β
  headers : List (String × String)
deriving Repr, DecidableEq

def restyBuildRequest (gzipC : α → β) (encrypt : β → β) (hmacF : String → β → String)
    (key : String) (cryptoKeyConfigured : Bool) (realIP : String) (marshalled : α) :
    HttpRequest β :=
  let compressed := gzipC marshalled
  let hashSignature := if key ≠ "" then hmacF key compressed else ""
  let dataToSend := if cryptoKeyConfigured then encrypt compressed else compressed
  { body := dataToSend
    headers :=
      [("Content-Type", "application/json"), ("Content-Encoding", "gzip")] ++
        (if realIP ≠ "" then [("X-Real-IP", realIP)] else []) ++
        (if cryptoKeyConfigured then [("X-Encrypted", "true")] else []) ++
        (if hashSignature ≠ "" then [("HashSHA256", hashSignature)] else []) }

/-- C3: with both a signing key and an encryption key configured, the body
sent is the encrypted compressed payload, but the attached HMAC signature
is computed over the gzip-compressed plaintext — the pre-encryption bytes —
and is therefore independent of the encryption function. -/
theorem c3_signature_over_compressed_plaintext (gzipC : α → β) (encrypt : β → β)
    (hmacF : String → β → String) (key realIP : String) (marshalled : α)
    (hkey : key ≠ "") (hsig : hmacF key (gzipC marshalled) ≠ "") :
    (restyBuildRequest gzipC encrypt hmacF key true realIP marshalled).body =
      encrypt (gzipC marshalled) ∧
    lookupKey "HashSHA256"
        (restyBuildRequest gzipC encrypt hmacF key true realIP marshalled).headers =
      some (hmacF key (gzipC marshalled)) ∧
    (∀ encrypt₂ : β → β,
      lookupKey "HashSHA256"
          (restyBuildRequest gzipC encrypt₂ hmacF key true realIP marshalled).headers =
        lookupKey "HashSHA256"
          (restyBuildRequest gzipC encrypt hmacF key true realIP marshalled).headers) := by
  refine ⟨by simp [restyBuildRequest, hkey], ?_, ?_⟩
  · by_cases hip : realIP = "" <;>
      simp [restyBuildRequest, hkey, hsig, hip, lookupKey]
  · intro encrypt₂
    by_cases hip : realIP = "" <;>
      simp [restyBuildRequest, hkey, hsig, hip, lookupKey]

/-- C3 witness: the theorem applied at a concrete compressor, encryptor and
keyed hash. -/
theorem c3_signature_over_compressed_plaintext_witness :
    (restyBuildRequest (fun n : Nat => n + 1) (fun b => b * 2) (fun k b => k ++ toString b)
        "k" true "10.0.0.1" 41).body = 84 ∧
    lookupKey "HashSHA256"
        (restyBuildRequest (fun n : Nat => n + 1) (fun b => b * 2)
          (fun k b => k ++ toString b) "k" true "10.0.0.1" 41).headers =
      some "k42" :=
  ⟨(c3_signature_over_compressed_plaintext (fun n : Nat => n + 1) (fun b => b * 2)
      (fun k b => k ++ toString b) "k" "10.0.0.1" 41 (by decide) (by decide)).1,
   (c3_signature_over_compressed_plaintext (fun n : Nat => n + 1) (fun b => b * 2)
      (fun k b => k ++ toString b) "k" "10.0.0.1" 41 (by decide) (by decide)).2.1⟩

/-! ## Shutdown protocol of the agent main loop (dual-transport agent)

`shutdownTrace` records, in program order, the steps the signal branch of
the agent's `main` select loop performs: build the final batch snapshot,
enqueue it when non-empty, cancel the two sampling-timer contexts, close
the job queue, wait on the worker WaitGroup, close the sender. -/

inductive ShutdownStep where
  | buildFinalBatch
  | enqueueFinalBatch
  | cancelPollTimer
  | cancelSysTimer
  | closeJobQueue
  | waitWorkers
  | closeSender
deriving Repr, DecidableEq

def shutdownTrace (finalBatchNonEmpty : Bool) : List ShutdownStep :=
  [ShutdownStep.buildFinalBatch] ++
    (if finalBatchNonEmpty then [ShutdownStep.enqueueFinalBatch] else []) ++
    [ShutdownStep.cancelPollTimer, ShutdownStep.cancelSysTimer,
     ShutdownStep.closeJobQueue, ShutdownStep.waitWorkers, ShutdownStep.closeSender]

/-- C5, counterexample: the claimed order — cancel the sampling timers
first, then build and enqueue the final batch — does not hold: in the code
the final batch is built and enqueued before the sampling-timer contexts
are cancelled. -/
theorem c5_shutdown_order_counterexample :
    ¬ ((shutdownTrace true).indexOf ShutdownStep.cancelPollTimer <
        (shutdownTrace true).indexOf ShutdownStep.enqueueFinalBatch) ∧
    (shutdownTrace true).indexOf ShutdownStep.enqueueFinalBatch <
      (shutdownTrace true).indexOf ShutdownStep.cancelPollTimer := by
  decide

/-- C5 (amended): on a shutdown signal the agent performs, in order:
synchronously build the final batch, enqueue it (exactly once, when it is
non-empty), cancel the sampling timers, close the job queue, and block on
the worker WaitGroup until every worker has drained its in-flight send and
exited. The final batch is enqueued exactly once and strictly before the
queue is closed, so by unbuffered-channel semantics it is delivered to
exactly one worker before the drain wait completes. -/
theorem c5_shutdown_protocol (b : Bool) (hb : b = true) :
    (shutdownTrace b).count ShutdownStep.enqueueFinalBatch = 1 ∧
    (shutdownTrace b).indexOf ShutdownStep.buildFinalBatch <
      (shutdownTrace b).indexOf ShutdownStep.enqueueFinalBatch ∧
    (shutdownTrace b).indexOf ShutdownStep.enqueueFinalBatch <
      (shutdownTrace b).indexOf ShutdownStep.cancelPollTimer ∧
    (shutdownTrace b).indexOf ShutdownStep.cancelPollTimer <
      (shutdownTrace b).indexOf ShutdownStep.cancelSysTimer ∧
    (shutdownTrace b).indexOf ShutdownStep.cancelSysTimer <
      (shutdownTrace b).indexOf ShutdownStep.closeJobQueue ∧
    (shutdownTrace b).indexOf ShutdownStep.closeJobQueue <
      (shutdownTrace b).indexOf ShutdownStep.waitWorkers := by
  subst hb
  decide

/-- C5 witness: the amended protocol at a non-empty final batch. -/
theorem c5_shutdown_protocol_witness :
    (shutdownTrace true).count ShutdownStep.enqueueFinalBatch = 1 :=
  (c5_shutdown_protocol true rfl).1

/-! ## gRPC trusted-subnet interceptor (`internal/grpcserver/interceptor.go`)

`net.ParseIP` and `(*net.IPNet).Contains` are external library calls,
abstracted as `parseIP` and the containment predicate carried by the
configured subnet; the handler is an arbitrary state transformer over the
server store. -/

inductive GrpcOutcome (ρ : Type) where
  | ok (resp : ρ)
  | permissionDenied (message : String)
deriving Repr, DecidableEq

/-- ASCII whitespace, as `strings.TrimSpace` strips it. -/
def isSpaceChar (c : Char) : Bool :=
  c == ' ' || c == '\t' || c == '\n' || c == '\r'

/-- Models `strings.TrimSpace`: drops whitespace from both ends. -/
def trimSpace (s : String) : String :=
  String.mk (((s.data.dropWhile isSpaceChar).reverse.dropWhile isSpaceChar).reverse)

def IPSubnetInterceptor {σ ρ IPAddr : Type} (parseIP : String → Option IPAddr)
    (trustedSubnet : Option (IPAddr → Bool)) (md : Option (List String))
    (handler : σ → σ × ρ) (st : σ) : σ × GrpcOutcome ρ :=
  match trustedSubnet with
  | none => ((handler st).1, .ok (handler st).2)
  | some inSubnet =>
    match md with
    | none => (st, .permissionDenied "missing metadata")
    | some values =>
      match values with
      | [] => (st, .permissionDenied "missing x-real-ip")
      | v :: _ =>
        match parseIP (trimSpace v) with
        | none => (st, .permissionDenied "ip not allowed")
        | some ip =>
          if inSubnet ip then ((handler st).1, .ok (handler st).2)
          else (st, .permissionDenied "ip not allowed")

/-- C8: with no trusted subnet configured every call passes straight to
the handler; with a subnet configured, the interceptor rejects with a
permission error — leaving the store exactly as it was — precisely when
the metadata is missing, the x-real-ip value list is empty, the value does
not parse as an IP, or the parsed IP is not contained in the subnet; and a
present, parsable, contained IP passes through to the handler. -/
theorem c8_subnet_interceptor {σ ρ IPAddr : Type} (parseIP : String → Option IPAddr)
    (inSubnet : IPAddr → Bool) (md : Option (List String))
    (handler : σ → σ × ρ) (st : σ) :
    (∀ md₀, IPSubnetInterceptor parseIP (none : Option (IPAddr → Bool)) md₀ handler st =
      ((handler st).1, .ok (handler st).2)) ∧
    ((∃ msg, IPSubnetInterceptor parseIP (some inSubnet) md handler st =
        (st, .permissionDenied msg)) ↔
      (md = none ∨ md = some [] ∨
        ∃ v rest, md = some (v :: rest) ∧
          (parseIP (trimSpace v) = none ∨
            ∃ ip, parseIP (trimSpace v) = some ip ∧ inSubnet ip = false))) ∧
    (∀ v rest ip, md = some (v :: rest) → parseIP (trimSpace v) = some ip → inSubnet ip = true →
      IPSubnetInterceptor parseIP (some inSubnet) md handler st =
        ((handler st).1, .ok (handler st).2)) := by
  refine ⟨fun md₀ => rfl, ?_, ?_⟩
  · cases md with
    | none => simp [IPSubnetInterceptor]
    | some values =>
      cases values with
      | nil => simp [IPSubnetInterceptor]
      | cons v rest =>
        cases hp : parseIP (trimSpace v) with
        | none => simp [IPSubnetInterceptor, hp]
        | some ip =>
          by_cases hc : inSubnet ip
          · simp [IPSubnetInterceptor, hp, hc]
          · simp only [IPSubnetInterceptor, hp, Bool.not_eq_true] at hc ⊢
            rw [hc]
            simp [hp, hc]
  · intro v rest ip hmd hp hc
    subst hmd
    simp [IPSubnetInterceptor, hp, hc]

/-- C8 witness: a concrete rejected call (value outside the subnet) and a
concrete passed call. -/
theorem c8_subnet_interceptor_witness :
    (∃ msg, IPSubnetInterceptor (fun s => if s = "ok" then some 1 else none)
        (some (fun ip : Nat => ip == 1)) (some ["bad"])
        (fun n : Nat => (n + 1, "resp")) 0 = (0, .permissionDenied msg)) ∧
    IPSubnetInterceptor (fun s => if s = "ok" then some 1 else none)
        (some (fun ip : Nat => ip == 1)) (some ["ok"])
        (fun n : Nat => (n + 1, "resp")) 0 = (1, .ok "resp") :=
  ⟨((c8_subnet_interceptor (fun s => if s = "ok" then some 1 else none)
      (fun ip : Nat => ip == 1) (some ["bad"]) (fun n : Nat => (n + 1, "resp")) 0).2.1).mpr
      (Or.inr (Or.inr ⟨"bad", [], rfl, Or.inl (by decide)⟩)),
   (c8_subnet_interceptor (fun s => if s = "ok" then some 1 else none)
      (fun ip : Nat => ip == 1) (some ["ok"]) (fun n : Nat => (n + 1, "resp")) 0).2.2
      "ok" [] 1 rfl (by decide) (by decide)⟩

/-! ## Poll counter float64 round trip (agent collector)

`collectMetrics` increments the `int64` field `pollCount` and stores
`Metric{"counter", float64(pollCount)}` in the collector's metric map;
`buildBatchSnapshot` reads that `float64` back with `int64(metric.Value)`.
The conversion `float64(n)` of a nonnegative integer rounds to nearest
(ties to even) at 53 significant bits, and truncating the resulting
integral float returns exactly the integer it holds, so the delivered
delta is `roundFloat53 n`. -/

/-- Bit length of a natural number (`0` for `0`). -/
def bitlen (n : Nat) : Nat := if n = 0 then 0 else n.log2 + 1

/-- Rounding to nearest, ties to even, at 53 significant bits: the exact
integer a `float64` holds after converting the nonnegative integer `n`. -/
def roundFloat53 (n : Nat) : Nat :=
  if bitlen n ≤ 53 then n
  else
    (if 2 ^ (bitlen n - 53 - 1) < n % 2 ^ (bitlen n - 53) ∨
        (n % 2 ^ (bitlen n - 53) = 2 ^ (bitlen n - 53 - 1) ∧
          (n / 2 ^ (bitlen n - 53)) % 2 = 1)
      then n / 2 ^ (bitlen n - 53) + 1
      else n / 2 ^ (bitlen n - 53)) * 2 ^ (bitlen n - 53)

/-- The value the collector's metric map holds for PollCount after `n`
sampling passes: `float64(pollCount)`. -/
def collectStoredPollValue (pollCount : Nat) : Nat := roundFloat53 pollCount

/-- The delta `buildBatchSnapshot` puts into the batch:
`int64(metric.Value)`, truncation of an integral float64. -/
def snapshotPollDelta (pollCount : Nat) : Nat := collectStoredPollValue pollCount

/-- Exactly representable as a `float64` integer: a 53-bit significand
times a power of two. -/
def repr53 (n : Nat) : Prop := ∃ m e, m < 2 ^ 53 ∧ n = m * 2 ^ e

theorem bitlen_le (n k : Nat) : bitlen n ≤ k ↔ n < 2 ^ k := by
  unfold bitlen
  by_cases h : n = 0
  · subst h
    simp [Nat.pos_pow_of_pos, pow_pos]
  · rw [if_neg h, Nat.succ_le_iff]
    exact Nat.log2_lt h

theorem repr53_round (n : Nat) (h : repr53 n) : roundFloat53 n = n := by
  obtain ⟨m, e, hm, rfl⟩ := h
  by_cases hb : bitlen (m * 2 ^ e) ≤ 53
  · simp [roundFloat53, hb]
  · have hlt : m * 2 ^ e < 2 ^ (53 + e) := by
      rw [pow_add]
      exact Nat.mul_lt_mul_of_lt_of_le hm (le_refl _) (pow_pos (by decide) e)
    have hble : bitlen (m * 2 ^ e) ≤ 53 + e := (bitlen_le _ _).mpr hlt
    have hsle : bitlen (m * 2 ^ e) - 53 ≤ e := by omega
    have hsge : 1 ≤ bitlen (m * 2 ^ e) - 53 := by omega
    have hdvd : 2 ^ (bitlen (m * 2 ^ e) - 53) ∣ m * 2 ^ e :=
      Dvd.dvd.mul_left (pow_dvd_pow 2 hsle) m
    have hr : m * 2 ^ e % 2 ^ (bitlen (m * 2 ^ e) - 53) = 0 :=
      Nat.dvd_iff_mod_eq_zero.mp hdvd
    have hhalf : 0 < 2 ^ (bitlen (m * 2 ^ e) - 53 - 1) := pow_pos (by decide) _
    rw [roundFloat53, if_neg hb, hr, if_neg (by omega)]
    exact Nat.div_mul_cancel hdvd

theorem round_repr53 (n : Nat) (h : roundFloat53 n = n) : repr53 n := by
  by_cases hb : bitlen n ≤ 53
  · exact ⟨n, 0, (bitlen_le n 53).mp hb, by simp⟩
  · rw [roundFloat53, if_neg hb] at h
    have hpow : 0 < 2 ^ (bitlen n - 53) := pow_pos (by decide) _
    have hmod : 2 ^ (bitlen n - 53) * (n / 2 ^ (bitlen n - 53)) + n % 2 ^ (bitlen n - 53) = n :=
      Nat.div_add_mod n (2 ^ (bitlen n - 53))
    have hrlt : n % 2 ^ (bitlen n - 53) < 2 ^ (bitlen n - 53) := Nat.mod_lt n hpow
    by_cases hcond : 2 ^ (bitlen n - 53 - 1) < n % 2 ^ (bitlen n - 53) ∨
        (n % 2 ^ (bitlen n - 53) = 2 ^ (bitlen n - 53 - 1) ∧
          (n / 2 ^ (bitlen n - 53)) % 2 = 1)
    · exfalso
      rw [if_pos hcond] at h
      rw [Nat.add_mul, Nat.one_mul] at h
      rw [Nat.mul_comm (2 ^ (bitlen n - 53))] at hmod
      omega
    · rw [if_neg hcond] at h
      have hq53 : n / 2 ^ (bitlen n - 53) < 2 ^ 53 := by
        have h54 : bitlen n ≤ 53 + (bitlen n - 53) := by omega
        have hn53 : n < 2 ^ (53 + (bitlen n - 53)) := (bitlen_le _ _).mp h54
        refine Nat.div_lt_of_lt_mul ?_
        rw [pow_add, Nat.mul_comm] at hn53
        exact hn53
      exact ⟨n / 2 ^ (bitlen n - 53), bitlen n - 53, hq53, h.symm⟩

theorem le_two_pow53_repr (n : Nat) (h : n ≤ 2 ^ 53) : repr53 n := by
  rcases Nat.lt_or_ge n (2 ^ 53) with hlt | hge
  · exact ⟨n, 0, hlt, by simp⟩
  · have heq : n = 2 ^ 53 := Nat.le_antisymm h hge
    refine ⟨2 ^ 52, 1, ?_, ?_⟩
    · exact Nat.pow_lt_pow_right (by decide) (by decide)
    · rw [heq]
      norm_num

/-- C10: the collector keeps the PollCount metric-map entry as a `float64`
and the snapshot builder converts it back to `int64` by truncation, so the
delivered PollCount delta equals the true number of sampling passes exactly
when that number is representable in a float64's 53-bit significand — in
particular always while it is at most 2^53. -/
theorem c10_pollcount_float64_roundtrip (n : Nat) :
    (snapshotPollDelta n = n ↔ repr53 n) ∧ (n ≤ 2 ^ 53 → snapshotPollDelta n = n) := by
  constructor
  · exact ⟨round_repr53 n, repr53_round n⟩
  · intro h
    exact repr53_round n (le_two_pow53_repr n h)

/-- C10 witness: the exactness guarantee applied at the boundary count
2^53. -/
theorem c10_pollcount_float64_roundtrip_witness :
    snapshotPollDelta (2 ^ 53) = 2 ^ 53 :=
  (c10_pollcount_float64_roundtrip (2 ^ 53)).2 (Nat.le_refl _)

end MetricAlerter
